import Mathlib

/- Shallow embedding of the whisper-mlx daemon's chat orchestrator and
   admission queue, translated from:
     src/daemon/chat.py        (message assembly, tool-call parsing, loop)
     src/daemon/tools/registry.py  (ToolRegistry.execute / execute_async)
     src/daemon/server.py      (AppState queue/guard state, session_chat)
     src/daemon/sessions.py    (Session.add_message)
   Python strings are modeled as Lean `String` (sequences of code points,
   matching Python `len` and slicing); machine-level effects (uuid, clock,
   the MLX backend, the event loop) appear as explicit parameters. -/

set_option linter.unusedVariables false

-- ===== Python string helpers =====

/-- ASCII fragment of Python's whitespace class, as matched by `\s` in `re`
    and stripped by `str.strip()`. -/
def isPySpace (c : Char) : Bool :=
  c = ' ' || c = '\t' || c = '\n' || c = '\r' || c = '\x0b' || c = '\x0c'

/-- Python `str.strip()` on a character list. -/
def pyStripList (l : List Char) : List Char :=
  ((l.dropWhile isPySpace).reverse.dropWhile isPySpace).reverse

/-- Python `str.strip()`. -/
def pyStrip (s : String) : String := ⟨pyStripList s.data⟩

/-- Python substring test `pat in s`, on character lists. -/
def hasSub (pat : List Char) : List Char → Bool
  | [] => pat.isEmpty
  | c :: rest => pat.isPrefixOf (c :: rest) || hasSub pat rest

/-- Python substring test `pat in s`. -/
def hasSubStr (pat s : String) : Bool := hasSub pat.data s.data

-- ===== JSON values (shapes produced by json.loads) =====

/-- JSON values carried in tool-call arguments.  Numbers are modeled as
    integers: no code path under verification computes with numeric
    payloads, and floating point is outside the model. -/
inductive PyJson where
  | null
  | bool (b : Bool)
  | num (n : Int)
  | str (s : String)
  | arr (elems : List PyJson)
  | obj (fields : List (String × PyJson))

/-- `data.get(key, "")` for the `"name"` field of a parsed tool call.
    A non-string value here (which CPython would pass through untyped)
    is outside the model and maps to the default. -/
def pyGetStr (fields : List (String × PyJson)) (key : String) : String :=
  match fields.lookup key with
  | some (PyJson.str s) => s
  | _ => ""

/-- `data.get(key, {})` for the `"arguments"` field of a parsed tool call.
    A non-object value here is outside the model and maps to the default. -/
def pyGetObj (fields : List (String × PyJson)) (key : String) : List (String × PyJson) :=
  match fields.lookup key with
  | some (PyJson.obj fs) => fs
  | _ => []

-- ===== json.dumps string escaping (ensure_ascii=True, default separators) =====

/-- Lowercase hexadecimal digit, as produced by CPython's `"%04x"`. -/
def hexDigit (n : Nat) : Char :=
  if n < 10 then Char.ofNat (48 + n % 16) else Char.ofNat (87 + n % 16)

/-- Four lowercase hex digits of `n`, most significant first. -/
def hex4 (n : Nat) : List Char :=
  [hexDigit (n / 4096 % 16), hexDigit (n / 256 % 16), hexDigit (n / 16 % 16), hexDigit (n % 16)]

/-- `json.dumps` escaping of one character (ensure_ascii=True): short escapes,
    printable ASCII verbatim, everything else as `\uXXXX` (surrogate pairs
    above the BMP). -/
def escapeChar (c : Char) : List Char :=
  if c = '"' then ['\\', '"']
  else if c = '\\' then ['\\', '\\']
  else if c = '\n' then ['\\', 'n']
  else if c = '\r' then ['\\', 'r']
  else if c = '\t' then ['\\', 't']
  else if c = '\x08' then ['\\', 'b']
  else if c = '\x0c' then ['\\', 'f']
  else if 0x20 ≤ c.toNat ∧ c.toNat ≤ 0x7e then [c]
  else if c.toNat < 0x10000 then '\\' :: 'u' :: hex4 c.toNat
  else
    let v := c.toNat - 0x10000
    ('\\' :: 'u' :: hex4 (0xd800 + v / 1024)) ++ ('\\' :: 'u' :: hex4 (0xdc00 + v % 1024))

/-- `json.dumps` rendering of a Python string (without the surrounding quotes). -/
def pyJsonEscape (s : String) : String := ⟨(s.data.map escapeChar).flatten⟩

/-- `json.dumps({"error": msg})`, as produced by the registry's error paths. -/
def jsonErrorString (msg : String) : String :=
  "\x7b\"error\": \"" ++ pyJsonEscape msg ++ "\"\x7d"

-- ===== Tool registry (src/daemon/tools/registry.py) =====

/-- A resolved tool.  `run` is the tool body: `Except.error m` models the body
    raising an exception whose `str` is `m`.  `isAsync` distinguishes
    coroutine-function tools.  `spec_json` is the serialized schema
    `json.dumps(tool.to_schema())`, kept opaque.  Lazily registered tools
    whose module fails to load are absent from the list (the registry's
    `get` then returns `None` for them, exactly like an unknown name). -/
structure MTool where
  name : String
  spec_json : String
  isAsync : Bool
  run : List (String × PyJson) → Except String String

/-- `ToolRegistry.get`: name lookup over the (resolved) registry contents. -/
def lookupTool (reg : List MTool) (name : String) : Option MTool :=
  reg.find? (fun t => t.name == name)

/-- `ToolRegistry.execute` (sync path).  An async tool reached here is not run:
    its coroutine is closed and an error envelope returned. -/
def registryExecute (reg : List MTool) (name : String)
    (arguments : List (String × PyJson)) : String :=
  match lookupTool reg name with
  | none => jsonErrorString ("Unknown tool: " ++ name)
  | some tool =>
      if tool.isAsync then
        jsonErrorString ("Tool " ++ name ++ " is async, use execute_async()")
      else
        match tool.run arguments with
        | Except.ok result => result
        | Except.error e => jsonErrorString ("Tool execution failed: " ++ e)

/-- `ToolRegistry.execute_async`: async tools awaited, sync tools run in a
    thread pool; either way the body's result or exception is what matters. -/
def registryExecuteAsync (reg : List MTool) (name : String)
    (arguments : List (String × PyJson)) : String :=
  match lookupTool reg name with
  | none => jsonErrorString ("Unknown tool: " ++ name)
  | some tool =>
      match tool.run arguments with
      | Except.ok result => result
      | Except.error e => jsonErrorString ("Tool execution failed: " ++ e)

-- ===== Regex scanners (chat.py patterns, specialized backtracking) =====

/- `re.sub(r"<open>.*?</close>", "", s, flags=re.DOTALL)` and
   `re.findall(r"<tool_call>\s*({.*?})\s*</tool_call>", s, re.DOTALL)`
   are embedded as direct scanners.  Both patterns consist of literals,
   greedy `\s*` followed by a non-space literal (hence no backtracking into
   the space run), and lazy `.*?` followed by a literal (hence: shortest
   body whose successor matches).  Scanning tries each start position left
   to right and resumes after each match, as `re` does.  The scanners use
   structural fuel initialized to the input length, which each step strictly
   dominates. -/

abbrev tcOpen : List Char := ['<', 't', 'o', 'o', 'l', '_', 'c', 'a', 'l', 'l', '>']
abbrev tcClose : List Char := ['<', '/', 't', 'o', 'o', 'l', '_', 'c', 'a', 'l', 'l', '>']
abbrev thinkOpen : List Char := ['<', 't', 'h', 'i', 'n', 'k', '>']
abbrev thinkClose : List Char := ['<', '/', 't', 'h', 'i', 'n', 'k', '>']

/-- Lazy `.*?` followed by the literal `closeT`: drop through the first
    occurrence of `closeT`, returning what follows it; `none` if `closeT`
    never occurs. -/
def dropThroughClose (closeT : List Char) : List Char → Option (List Char)
  | [] => if closeT.isPrefixOf ([] : List Char) then some [] else none
  | c :: rest =>
      if closeT.isPrefixOf (c :: rest) then some ((c :: rest).drop closeT.length)
      else dropThroughClose closeT rest

/-- Try to match `openT.*?closeT` anchored at the head of `l`; on success
    return the remainder after the match. -/
def tryFence (openT closeT l : List Char) : Option (List Char) :=
  if openT.isPrefixOf l then dropThroughClose closeT (l.drop openT.length)
  else none

/-- One `re.sub(pattern, "", s)` pass: scan left to right, delete each
    (leftmost, shortest-body) match, keep everything else. -/
def subFenceF (openT closeT : List Char) : Nat → List Char → List Char
  | _, [] => []
  | 0, l => l
  | fuel + 1, c :: rest =>
      match tryFence openT closeT (c :: rest) with
      | some r => subFenceF openT closeT fuel r
      | none => c :: subFenceF openT closeT fuel rest

def subFence (openT closeT : List Char) (l : List Char) : List Char :=
  subFenceF openT closeT l.length l

/-- `extract_final_response` (chat.py): remove tool-call blocks, then
    thinking blocks, then strip surrounding whitespace. -/
def extract_final_response (response : String) : String :=
  let cleaned := subFence tcOpen tcClose response.data
  let cleaned2 := subFence thinkOpen thinkClose cleaned
  ⟨pyStripList cleaned2⟩

/-- Suffix after the first occurrence of `pat` (for `re.search` scanning). -/
def afterFirst (pat : List Char) : List Char → Option (List Char)
  | [] => if pat.isPrefixOf ([] : List Char) then some [] else none
  | c :: rest =>
      if pat.isPrefixOf (c :: rest) then some ((c :: rest).drop pat.length)
      else afterFirst pat rest

/-- Characters before the first occurrence of `pat`; `none` if absent. -/
def beforeFirst (pat : List Char) : List Char → Option (List Char)
  | [] => if pat.isPrefixOf ([] : List Char) then some [] else none
  | c :: rest =>
      if pat.isPrefixOf (c :: rest) then some []
      else (beforeFirst pat rest).map (fun b => c :: b)

/-- `extract_thinking` (chat.py): lazy group of the first
    `<think>(.*?)</think>` match, stripped; `None` when there is no match. -/
def extract_thinking (response : String) : Option String :=
  match afterFirst thinkOpen response.data with
  | none => none
  | some m =>
      match beforeFirst thinkClose m with
      | none => none
      | some grp => some ⟨pyStripList grp⟩

/-- Greedy `\s*`. -/
def skipWs (l : List Char) : List Char := l.dropWhile isPySpace

/-- Lazy body of `{.*?}\s*</tool_call>`: shortest run of characters whose
    following `}` is itself followed (after whitespace) by `</tool_call>`;
    returns the body and the remainder after the whole match. -/
def scanBody : List Char → Option (List Char × List Char)
  | [] => none
  | c :: rest =>
      if c = '}' && tcClose.isPrefixOf (skipWs rest) then
        some ([], (skipWs rest).drop tcClose.length)
      else
        match scanBody rest with
        | some (body, r) => some (c :: body, r)
        | none => none

/-- Match `<tool_call>\s*({.*?})\s*</tool_call>` anchored at the head of `l`;
    on success return the JSON group (braces included) and the remainder. -/
def tryMatchTC (l : List Char) : Option (List Char × List Char) :=
  if tcOpen.isPrefixOf l then
    match skipWs (l.drop tcOpen.length) with
    | '{' :: rest =>
        match scanBody rest with
        | some (body, r) => some ('{' :: body ++ ['}'], r)
        | none => none
    | _ => none
  else none

/-- `re.findall` over the tool-call pattern, with structural fuel. -/
def toolCallBlocksF : Nat → List Char → List (List Char)
  | _, [] => []
  | 0, _ => []
  | fuel + 1, c :: rest =>
      match tryMatchTC (c :: rest) with
      | some (g, r) => g :: toolCallBlocksF fuel r
      | none => toolCallBlocksF fuel rest

/-- All `({.*?})` groups of `<tool_call>...</tool_call>` matches in `response`,
    in scanning order. -/
def toolCallBlocks (response : String) : List (List Char) :=
  toolCallBlocksF response.data.length response.data

-- ===== Chat data types (chat.py dataclasses) =====

structure ChatMessage where
  role : String
  content : String

structure ToolCall where
  name : String
  arguments : List (String × PyJson)

structure ToolResult where
  tool_name : String
  result : String

structure ChatResponse where
  content : String
  tool_calls : List ToolCall
  tool_results : List ToolResult
  rounds_used : Nat
  finished : Bool

/-- `ToolCall(name=data.get("name", ""), arguments=data.get("arguments", {}))`. -/
def mkToolCall (fields : List (String × PyJson)) : ToolCall :=
  { name := pyGetStr fields "name", arguments := pyGetObj fields "arguments" }

/-- The `for match in matches: try json.loads ... except: continue` loop of
    `parse_tool_calls`, accumulating into `calls`.  `loads` stands for
    `json.loads` restricted to the object shape the regex group guarantees
    (the group starts with `{` and ends with `}`); `none` models
    `JSONDecodeError`. -/
def parseLoop (loads : String → Option (List (String × PyJson))) :
    List (List Char) → List ToolCall → List ToolCall
  | [], calls => calls
  | m :: rest, calls =>
      match loads ⟨m⟩ with
      | some fields => parseLoop loads rest (calls ++ [mkToolCall fields])
      | none => parseLoop loads rest calls

/-- `parse_tool_calls` (chat.py).  Total by construction: the Python function
    catches `JSONDecodeError` and can raise nothing else on a `str` input. -/
def parse_tool_calls (loads : String → Option (List (String × PyJson)))
    (response : String) : List ToolCall :=
  parseLoop loads (toolCallBlocks response) []

-- ===== Profiles (profiles/base.py) =====

/-- Immutable agent profile.  `temperature` (a float, unused by the loop) and
    `context_augmenters` (unused by the code under verification) are omitted. -/
structure Profile where
  name : String
  system_prompt : String
  tools : List MTool
  max_tool_rounds : Nat
  max_tokens : Nat

/-- `format_tools_prompt` (chat.py); `spec_json` stands for
    `json.dumps(tool.to_schema())`. -/
def format_tools_prompt (tools : List MTool) : String :=
  if tools.isEmpty then ""
  else
    let tools_json := String.intercalate "\n" (tools.map (fun t => t.spec_json))
    "\n\n# Tools\n\nYou may call one or more functions to assist with the user query.\n\nYou are provided with function signatures within <tools></tools> XML tags:\n<tools>\n"
      ++ tools_json
      ++ "\n</tools>\n\nFor each function call, return a json object with function name and arguments within <tool_call></tool_call> XML tags:\n<tool_call>\n\x7b\"name\": \"<function-name>\", \"arguments\": \x7b\"<arg1>\": \"<value1>\"\x7d\x7d\n</tool_call>"

/-- `build_system_prompt` (chat.py). -/
def build_system_prompt (profile : Profile) : String :=
  profile.system_prompt ++ format_tools_prompt profile.tools

/-- `ChatService._build_messages`: system prompt then the conversation. -/
def build_messages (system_prompt : String) (conversation : List ChatMessage) :
    List ChatMessage :=
  ChatMessage.mk "system" system_prompt :: conversation

/-- `format_tool_results` (chat.py): newline-joined `<tool_response>` blocks,
    each wrapping `json.dumps({'name': ..., 'result': ...})`. -/
def format_tool_results (results : List ToolResult) : String :=
  String.intercalate "\n" (results.map (fun r =>
    "<tool_response>\n\x7b\"name\": \"" ++ pyJsonEscape r.tool_name
      ++ "\", \"result\": \"" ++ pyJsonEscape r.result ++ "\"\x7d\n</tool_response>"))

-- ===== SSE truncation helpers (chat.py) =====

/-- `_truncate_args` (chat.py); `max_len` defaults to 200 at the call site. -/
def truncate_args (args : List (String × PyJson)) (max_len : Nat) :
    List (String × PyJson) :=
  args.map (fun kv =>
    match kv.2 with
    | PyJson.str s =>
        if kv.1 = "code" then (kv.1, PyJson.str s)
        else if s.length > max_len then (kv.1, PyJson.str (s.take max_len ++ "..."))
        else (kv.1, PyJson.str s)
    | v => (kv.1, v))

/-- `_truncate_result` (chat.py); `max_len` defaults to 500 at the call site. -/
def truncate_result (result : String) (max_len : Nat) : String :=
  if result.length > max_len then result.take max_len ++ "..." else result

-- ===== Conversation loop (ChatService.chat / chat_async) =====

def nudgeMessage : String := "Now use your tools to help answer the question."

/-- The `for round_num in range(profile.max_tool_rounds)` loop of
    `ChatService.chat`, with `remaining` iterations left and the loop
    variables threaded explicitly.  `gen` is the backend
    (`self._model.generate`), `ex` the registry execution path
    (`execute` for the sync service, `execute_async` for the async one),
    `loads` is `json.loads` as in `parse_tool_calls`.  Falling off the loop
    returns the best-effort response with `finished=False`. -/
def chatGo (gen : List ChatMessage → String)
    (ex : String → List (String × PyJson) → String)
    (loads : String → Option (List (String × PyJson)))
    (profile : Profile) (system_prompt : String) :
    Nat → Nat → List ChatMessage → List ToolCall → List ToolResult → String →
    ChatResponse
  | 0, _, _, allCalls, allResults, response =>
      ChatResponse.mk (extract_final_response response) allCalls allResults
        profile.max_tool_rounds false
  | remaining + 1, round_num, conversation, allCalls, allResults, _ =>
      let response := gen (build_messages system_prompt conversation)
      match parse_tool_calls loads response with
      | [] =>
          let final_content := extract_final_response response
          if hasSubStr "<think>" response = true ∧ final_content.length < 50
              ∧ round_num < 3 ∧ profile.tools.isEmpty = false then
            chatGo gen ex loads profile system_prompt remaining (round_num + 1)
              (conversation ++ [ChatMessage.mk "assistant" response,
                                ChatMessage.mk "user" nudgeMessage])
              allCalls allResults response
          else
            ChatResponse.mk final_content allCalls allResults (round_num + 1) true
      | tc :: tcs =>
          let round_results := (tc :: tcs).map
            (fun c => ToolResult.mk c.name (ex c.name c.arguments))
          chatGo gen ex loads profile system_prompt remaining (round_num + 1)
            (conversation ++ [ChatMessage.mk "assistant" response,
                              ChatMessage.mk "user" (format_tool_results round_results)])
            (allCalls ++ (tc :: tcs)) (allResults ++ round_results) response

/-- Ghost observer: the value of the `response` local variable at the point
    `ChatService.chat` returns, tracked through the same control flow as
    `chatGo`. -/
def chatLastResponse (gen : List ChatMessage → String)
    (ex : String → List (String × PyJson) → String)
    (loads : String → Option (List (String × PyJson)))
    (profile : Profile) (system_prompt : String) :
    Nat → Nat → List ChatMessage → String → String
  | 0, _, _, response => response
  | remaining + 1, round_num, conversation, _ =>
      let response := gen (build_messages system_prompt conversation)
      match parse_tool_calls loads response with
      | [] =>
          let final_content := extract_final_response response
          if hasSubStr "<think>" response = true ∧ final_content.length < 50
              ∧ round_num < 3 ∧ profile.tools.isEmpty = false then
            chatLastResponse gen ex loads profile system_prompt remaining (round_num + 1)
              (conversation ++ [ChatMessage.mk "assistant" response,
                                ChatMessage.mk "user" nudgeMessage])
              response
          else response
      | tc :: tcs =>
          let round_results := (tc :: tcs).map
            (fun c => ToolResult.mk c.name (ex c.name c.arguments))
          chatLastResponse gen ex loads profile system_prompt remaining (round_num + 1)
            (conversation ++ [ChatMessage.mk "assistant" response,
                              ChatMessage.mk "user" (format_tool_results round_results)])
            response

/-- `ChatService.chat` (sync): profile lookup (`get_profile`, passed in as
    `getProf`), then the loop starting from the history plus the new user
    message. -/
def chat (gen : List ChatMessage → String) (reg : List MTool)
    (loads : String → Option (List (String × PyJson)))
    (getProf : String → Option Profile)
    (user_message profile_name : String)
    (conversation_history : List ChatMessage) : ChatResponse :=
  match getProf profile_name with
  | none => ChatResponse.mk ("Unknown profile: " ++ profile_name) [] [] 0 true
  | some profile =>
      chatGo gen (registryExecute reg) loads profile (build_system_prompt profile)
        profile.max_tool_rounds 0
        (conversation_history ++ [ChatMessage.mk "user" user_message]) [] [] ""

/-- Events emitted through the `on_event` sink of `chat_async`. -/
inductive SSEEvent where
  | round_start (round max_rounds : Nat)
  | generating (round max_rounds : Nat)
  | thinking (content : String) (round max_rounds : Nat)
  | tool_start (tool_name : String) (tool_args : List (String × PyJson))
      (round max_rounds : Nat)
  | tool_end (tool_name : String) (tool_result : String) (round max_rounds : Nat)

/-- The loop of `ChatService.chat_async`: same control flow as `chatGo` with
    `execute_async` for tools, returning the response together with the
    ordered list of events awaited on the `on_event` sink. -/
def chatAsyncGo (gen : List ChatMessage → String) (reg : List MTool)
    (loads : String → Option (List (String × PyJson)))
    (profile : Profile) (system_prompt : String) :
    Nat → Nat → List ChatMessage → List ToolCall → List ToolResult → String →
    ChatResponse × List SSEEvent
  | 0, _, _, allCalls, allResults, response =>
      (ChatResponse.mk (extract_final_response response) allCalls allResults
        profile.max_tool_rounds false, [])
  | remaining + 1, round_num, conversation, allCalls, allResults, _ =>
      let response := gen (build_messages system_prompt conversation)
      let headEvents :=
        [SSEEvent.round_start (round_num + 1) profile.max_tool_rounds,
         SSEEvent.generating (round_num + 1) profile.max_tool_rounds] ++
        (match extract_thinking response with
         | some t =>
             if t ≠ "" then
               [SSEEvent.thinking (t.take 2000) (round_num + 1) profile.max_tool_rounds]
             else []
         | none => [])
      match parse_tool_calls loads response with
      | [] =>
          let final_content := extract_final_response response
          if hasSubStr "<think>" response = true ∧ final_content.length < 50
              ∧ round_num < 3 ∧ profile.tools.isEmpty = false then
            let p := chatAsyncGo gen reg loads profile system_prompt remaining
              (round_num + 1)
              (conversation ++ [ChatMessage.mk "assistant" response,
                                ChatMessage.mk "user" nudgeMessage])
              allCalls allResults response
            (p.1, headEvents ++ p.2)
          else
            (ChatResponse.mk final_content allCalls allResults (round_num + 1) true,
             headEvents)
      | tc :: tcs =>
          let calls := tc :: tcs
          let round_results := calls.map
            (fun c => ToolResult.mk c.name (registryExecuteAsync reg c.name c.arguments))
          let toolEvents := calls.flatMap (fun c =>
            [SSEEvent.tool_start c.name (truncate_args c.arguments 200)
               (round_num + 1) profile.max_tool_rounds,
             SSEEvent.tool_end c.name
               (truncate_result (registryExecuteAsync reg c.name c.arguments) 500)
               (round_num + 1) profile.max_tool_rounds])
          let p := chatAsyncGo gen reg loads profile system_prompt remaining
            (round_num + 1)
            (conversation ++ [ChatMessage.mk "assistant" response,
                              ChatMessage.mk "user" (format_tool_results round_results)])
            (allCalls ++ calls) (allResults ++ round_results) response
          (p.1, headEvents ++ toolEvents ++ p.2)

/-- `ChatService.chat_async`: response plus emitted events. -/
def chat_async (gen : List ChatMessage → String) (reg : List MTool)
    (loads : String → Option (List (String × PyJson)))
    (getProf : String → Option Profile)
    (user_message profile_name : String)
    (conversation_history : List ChatMessage) : ChatResponse × List SSEEvent :=
  match getProf profile_name with
  | none => (ChatResponse.mk ("Unknown profile: " ++ profile_name) [] [] 0 true, [])
  | some profile =>
      chatAsyncGo gen reg loads profile (build_system_prompt profile)
        profile.max_tool_rounds 0
        (conversation_history ++ [ChatMessage.mk "user" user_message]) [] [] ""

-- ===== Admission queue state (server.py AppState) =====

/-- The mutable fields of `AppState` relevant to queueing.  Every method
    below executes atomically under `self._queue_lock`, so each is a pure
    state transition. -/
structure AppQueueState where
  generation_in_progress : Bool
  generating_session_id : Option String
  queued_session_ids : List String
  position_map : List (String × Nat)
  next_position : Nat

/-- `AppState.add_to_queue`.  The position map is a dict; the fresh-key
    insertion is placed at the head (insertion order is immaterial to dict
    semantics). -/
def add_to_queue (s : AppQueueState) (session_id : String) : Nat × AppQueueState :=
  match s.position_map.lookup session_id with
  | some p => (p, s)
  | none =>
      let position := s.next_position
      (position,
        { s with
          next_position := s.next_position + 1,
          position_map := (session_id, position) :: s.position_map,
          queued_session_ids :=
            if session_id ∈ s.queued_session_ids then s.queued_session_ids
            else s.queued_session_ids ++ [session_id] })

/-- `AppState.remove_from_queue`: idempotent removal (both containment checks
    are inside the Python method; `erase`/`eraseP` on an absent key are the
    identity). -/
def remove_from_queue (s : AppQueueState) (session_id : String) : AppQueueState :=
  { s with
    queued_session_ids := s.queued_session_ids.erase session_id,
    position_map := s.position_map.eraseP (fun kv => kv.1 == session_id),
    generating_session_id :=
      if s.generating_session_id = some session_id then none
      else s.generating_session_id }

/-- `AppState.set_generating(value, session_id)`: Python truthiness of
    `session_id` (falsy for `None` and for the empty string). -/
def set_generating (s : AppQueueState) (value : Bool) (session_id : Option String) :
    AppQueueState :=
  { s with
    generation_in_progress := value,
    generating_session_id :=
      if value then
        match session_id with
        | some sid => if sid ≠ "" then some sid else s.generating_session_id
        | none => s.generating_session_id
      else none }

/-- Sequential registration of several requests (any interleaving of the
    atomic `add_to_queue` calls is some such sequence): the returned
    positions, in call order, and the final state. -/
def assignPositions (s : AppQueueState) : List String → List Nat × AppQueueState
  | [] => ([], s)
  | sid :: rest =>
      let pr := add_to_queue s sid
      let tail := assignPositions pr.2 rest
      (pr.1 :: tail.1, tail.2)

-- ===== session_chat outcome model (server.py) =====

def waitingTimeoutDetail : String :=
  "Timed out after 30 minutes waiting for another request to finish."

def generationTimeoutDetail : String :=
  "Generation timed out after 30 minutes."

/-- How one `session_chat` request resolves: the overall deadline fires
    before the generation lock is acquired, or during generation, or the
    loop returns, or it raises unexpectedly. -/
inductive ChatScenario where
  | timeoutWaiting
  | timeoutGenerating
  | success (result : ChatResponse)
  | failure (msg : String)

/-- What the HTTP layer observes. -/
inductive ChatOutcome where
  | ok (resp : ChatResponse)
  | httpError (status : Nat) (detail : String)
  | raised (msg : String)

/-- The queue-state effects and outcome of one `session_chat` request, by
    scenario.  Mirrors the `try: async with timeout: async with lock: ...
    finally: set_generating(False); remove_from_queue(...)` /
    `except TimeoutError` structure: the inner `finally` runs on success, on
    a mid-generation timeout (the cancellation unwinds through it) and on an
    unexpected exception; the waiting-timeout branch removes the entry in the
    `except` handler since the lock body never began.  Session-store writes
    are outside this state. -/
def sessionChatRun (s : AppQueueState) (session_id : String) (scen : ChatScenario) :
    ChatOutcome × AppQueueState :=
  let s1 := (add_to_queue s session_id).2
  match scen with
  | ChatScenario.timeoutWaiting =>
      (ChatOutcome.httpError 503 waitingTimeoutDetail, remove_from_queue s1 session_id)
  | ChatScenario.timeoutGenerating =>
      let s2 := set_generating s1 true (some session_id)
      let s3 := remove_from_queue (set_generating s2 false none) session_id
      (ChatOutcome.httpError 503 generationTimeoutDetail, s3)
  | ChatScenario.success result =>
      let s2 := set_generating s1 true (some session_id)
      let s3 := remove_from_queue (set_generating s2 false none) session_id
      (ChatOutcome.ok result, s3)
  | ChatScenario.failure msg =>
      let s2 := set_generating s1 true (some session_id)
      let s3 := remove_from_queue (set_generating s2 false none) session_id
      (ChatOutcome.raised msg, s3)

-- ===== Sessions (sessions.py) =====

structure SessionMessage where
  id : String
  role : String
  content : String
  timestamp : Nat
  tool_calls : List (List (String × PyJson))
  tool_results : List (List (String × PyJson))

structure Session where
  id : String
  profile_name : String
  created_at : Nat
  updated_at : Nat
  messages : List SessionMessage
  title : Option String

/-- `Session.add_message`.  `uuid.uuid4()` and `datetime.now()` are effects,
    passed in as `msg_id` and `now`; `tool_calls or []` is `Option.getD`. -/
def add_message (s : Session) (role content : String)
    (tool_calls tool_results : Option (List (List (String × PyJson))))
    (msg_id : String) (now : Nat) : Session × SessionMessage :=
  let message : SessionMessage :=
    { id := msg_id, role := role, content := content, timestamp := now,
      tool_calls := tool_calls.getD [], tool_results := tool_results.getD [] }
  let withMsg := { s with messages := s.messages ++ [message], updated_at := now }
  let final :=
    if withMsg.title = none ∧ role = "user" ∧ content ≠ "" then
      { withMsg with
        title := some (content.take 50 ++ (if content.length > 50 then "..." else "")) }
    else withMsg
  (final, message)

-- ===== Statement helpers =====

/-- Characters that `json.dumps` renders verbatim: printable ASCII other than
    the quote and the backslash. -/
def asciiPlain (s : String) : Bool :=
  s.data.all (fun c => 0x20 ≤ c.toNat && c.toNat ≤ 0x7e && c != '"' && c != '\\')

/-- A backend response decomposed into plain text, tool-call blocks and
    thinking blocks, for stating what `extract_final_response` removes. -/
inductive Segment where
  | text (s : String)
  | toolBlock (body : String)
  | thinkBlock (body : String)

def Segment.renderChars : Segment → List Char
  | Segment.text s => s.data
  | Segment.toolBlock b => tcOpen ++ b.data ++ tcClose
  | Segment.thinkBlock b => thinkOpen ++ b.data ++ thinkClose

/-- The rendered response: segments concatenated in order. -/
def renderSegs (segs : List Segment) : String :=
  ⟨(segs.map Segment.renderChars).flatten⟩

def Segment.visChars : Segment → List Char
  | Segment.text s => s.data
  | _ => []

/-- The text that survives once fenced blocks are gone. -/
def visibleText (segs : List Segment) : String :=
  ⟨(segs.map Segment.visChars).flatten⟩

/-- Segment payloads free of the fence-marker character. -/
def segSafe : Segment → Bool
  | Segment.text s => s.data.all (fun c => c != '<')
  | Segment.toolBlock b => b.data.all (fun c => c != '<')
  | Segment.thinkBlock b => b.data.all (fun c => c != '<')

def Segment.isTool : Segment → Bool
  | Segment.toolBlock _ => true
  | _ => false

-- ===== Concrete fixtures (used by witnesses) =====

/-- A sync tool that returns `"ok"`. -/
def wTool : MTool := ⟨"t", "\x7b\x7d", false, fun _ => Except.ok "ok"⟩

/-- A two-round profile owning `wTool`. -/
def wProfile : Profile := ⟨"p", "sys", [wTool], 2, 64⟩

/-- A backend that always answers with one tool call. -/
def wGen : List ChatMessage → String :=
  fun _ => "<tool_call>\x7b\"name\": \"t\", \"arguments\": \x7b\x7d\x7d</tool_call>"

/-- A decoder recognizing exactly `wGen`'s tool-call body. -/
def wLoads : String → Option (List (String × PyJson)) := fun s =>
  if s = "\x7b\"name\": \"t\", \"arguments\": \x7b\x7d\x7d" then
    some [("name", PyJson.str "t"), ("arguments", PyJson.obj [])]
  else none

/-- A profile table holding only `wProfile` under `"p"`. -/
def wGetProf : String → Option Profile := fun s => if s = "p" then some wProfile else none

/-- A backend that reasons without acting. -/
def wGenThink : List ChatMessage → String := fun _ => "<think>mm</think>"

-- ===== Helper lemmas =====

theorem mem_zip_map {α β : Type} (f : α → β) :
    ∀ (l : List α) (p : α × β), p ∈ l.zip (l.map f) → p.2 = f p.1 := by
  intro l
  induction l with
  | nil => intro p hp; simp at hp
  | cons a t ih =>
      intro p hp
      simp only [List.map_cons, List.zip_cons_cons, List.mem_cons] at hp
      rcases hp with h | h
      · subst h; rfl
      · exact ih p h

theorem lookup_cons_ne {β : Type} {k a : String} (b : β) (es : List (String × β))
    (h : a ≠ k) : List.lookup a ((k, b) :: es) = List.lookup a es := by
  simp [List.lookup_cons, beq_false_of_ne h]

-- ===== C10 =====

/-- C10: `AppState.add_to_queue` is idempotent per session id: when the id is
    already in the position map the stored position is returned and the state
    is untouched (no counter increment, no new queue entry); consequently a
    second registration of the same session returns the first one's position
    and leaves the state of the first registration unchanged. -/
theorem C10_add_to_queue_idempotent (s : AppQueueState) (sid : String) :
    (∀ p : Nat, s.position_map.lookup sid = some p → add_to_queue s sid = (p, s)) ∧
    add_to_queue (add_to_queue s sid).2 sid =
      ((add_to_queue s sid).1, (add_to_queue s sid).2) := by
  refine ⟨fun p hp => by simp [add_to_queue, hp], ?_⟩
  match h : s.position_map.lookup sid with
  | some p => simp [add_to_queue, h]
  | none => simp [add_to_queue, h, List.lookup_cons]

theorem C10_witness :
    add_to_queue (add_to_queue ⟨false, none, [], [], 0⟩ "a").2 "a" =
      ((add_to_queue ⟨false, none, [], [], 0⟩ "a").1,
       (add_to_queue ⟨false, none, [], [], 0⟩ "a").2) ∧
    add_to_queue ⟨false, none, ["a"], [("a", 7)], 8⟩ "a" =
      (7, ⟨false, none, ["a"], [("a", 7)], 8⟩) :=
  ⟨(C10_add_to_queue_idempotent ⟨false, none, [], [], 0⟩ "a").2,
   (C10_add_to_queue_idempotent ⟨false, none, ["a"], [("a", 7)], 8⟩ "a").1 7 (by decide)⟩

-- ===== C8 =====

/-- C8: once a session's title is set, `add_message` never changes it; while
    it is unset, the call sets it exactly when the message role is `"user"`
    and the content is non-empty, deriving it from that content
    (first 50 characters plus an ellipsis when longer). -/
theorem C8_title_set_once (s : Session) (role content : String)
    (tool_calls tool_results : Option (List (List (String × PyJson))))
    (msg_id : String) (now : Nat) :
    (∀ t, s.title = some t →
      (add_message s role content tool_calls tool_results msg_id now).1.title = some t) ∧
    (s.title = none →
      (add_message s role content tool_calls tool_results msg_id now).1.title =
        (if role = "user" ∧ content ≠ "" then
          some (content.take 50 ++ (if content.length > 50 then "..." else ""))
         else none)) := by
  constructor
  · intro t ht
    simp [add_message, ht]
  · intro ht
    by_cases hc : role = "user" ∧ content ≠ ""
    · simp [add_message, ht, hc]
    · simp [add_message, ht, hc]

theorem C8_witness :
    (add_message ⟨"s1", "general", 0, 0, [], some "old title"⟩ "user" "hello"
        none none "m1" 5).1.title = some "old title" ∧
    (add_message ⟨"s1", "general", 0, 0, [], none⟩ "user" "hello"
        none none "m1" 5).1.title =
      (if ("user" : String) = "user" ∧ ("hello" : String) ≠ "" then
        some (("hello" : String).take 50 ++
          (if ("hello" : String).length > 50 then "..." else ""))
       else none) :=
  ⟨(C8_title_set_once ⟨"s1", "general", 0, 0, [], some "old title"⟩ "user" "hello"
      none none "m1" 5).1 "old title" rfl,
   (C8_title_set_once ⟨"s1", "general", 0, 0, [], none⟩ "user" "hello"
      none none "m1" 5).2 rfl⟩

-- ===== C9 =====

/-- C9: in the SSE payload truncation, every string argument value longer
    than the cap is cut to the cap with an ellipsis appended, except the
    value under the key `"code"`, which passes through unchanged whatever its
    length; non-string values and short strings pass through unchanged; and
    the tool-result truncation caps its string the same way (with no
    exception). -/
theorem C9_stream_truncation (args : List (String × PyJson))
    (arg_cap result_cap : Nat) (result : String) :
    (truncate_args args arg_cap).length = args.length ∧
    (∀ p ∈ args.zip (truncate_args args arg_cap),
      (∀ s : String, p.1.2 = PyJson.str s →
        (p.1.1 = "code" → p.2 = p.1) ∧
        (p.1.1 ≠ "code" → s.length > arg_cap →
          p.2 = (p.1.1, PyJson.str (s.take arg_cap ++ "..."))) ∧
        (p.1.1 ≠ "code" → s.length ≤ arg_cap → p.2 = p.1)) ∧
      ((∀ s : String, p.1.2 ≠ PyJson.str s) → p.2 = p.1)) ∧
    (result.length > result_cap →
      truncate_result result result_cap = result.take result_cap ++ "...") ∧
    (result.length ≤ result_cap → truncate_result result result_cap = result) := by
  refine ⟨by simp [truncate_args], ?_, ?_, ?_⟩
  · intro p hp
    have h2 := mem_zip_map _ args p hp
    obtain ⟨⟨k, v⟩, v'⟩ := p
    constructor
    · intro s hs
      simp only at hs
      subst hs
      simp only at h2
      refine ⟨?_, ?_, ?_⟩
      · intro hk
        subst hk
        simp [h2]
      · intro hk hlen
        rw [h2]
        simp [hk, hlen]
      · intro hk hlen
        rw [h2]
        simp [hk, Nat.not_lt.mpr hlen]
    · intro hns
      rw [h2]
      match v, hns with
      | PyJson.null, _ => rfl
      | PyJson.bool b, _ => rfl
      | PyJson.num n, _ => rfl
      | PyJson.arr xs, _ => rfl
      | PyJson.obj fs, _ => rfl
      | PyJson.str s, hns => exact absurd rfl (hns s)
  · intro hlen
    simp [truncate_result, hlen]
  · intro hlen
    simp [truncate_result, Nat.not_lt.mpr hlen]

theorem C9_witness :
    (truncate_args [("code", PyJson.str "print(1)")] 3).length = 1 ∧
    (truncate_result "abcdefgh" 5 = ("abcdefgh" : String).take 5 ++ "...") ∧
    (truncate_result "ab" 5 = "ab") :=
  ⟨(C9_stream_truncation [("code", PyJson.str "print(1)")] 3 5 "abcdefgh").1,
   (C9_stream_truncation [("code", PyJson.str "print(1)")] 3 5 "abcdefgh").2.2.1
     (by decide),
   (C9_stream_truncation [("code", PyJson.str "print(1)")] 3 5 "ab").2.2.2
     (by decide)⟩

-- ===== C1 =====

theorem assignPositions_fresh (ids : List String) :
    ∀ s : AppQueueState, ids.Nodup →
      (∀ id ∈ ids, s.position_map.lookup id = none) →
      (assignPositions s ids).1 = List.range' s.next_position ids.length := by
  induction ids with
  | nil => intro s _ _; simp [assignPositions]
  | cons sid rest ih =>
      intro s hnd hfresh
      have hsid : s.position_map.lookup sid = none := hfresh sid (by simp)
      have hns : sid ∉ rest := (List.nodup_cons.mp hnd).1
      simp only [assignPositions, add_to_queue, hsid, List.length_cons,
        List.range'_succ]
      congr 1
      refine ih _ (List.nodup_cons.mp hnd).2 ?_
      intro id hid
      have hne : id ≠ sid := fun h => hns (h ▸ hid)
      simpa [lookup_cons_ne _ _ hne] using hfresh id (List.mem_cons_of_mem _ hid)

/-- C1: starting from any state, if K requests with pairwise distinct,
    not-yet-registered session ids each call `add_to_queue` (in any order)
    before any of them is removed, the K returned positions are pairwise
    distinct: they form a set of exactly K elements. -/
theorem C1_concurrent_positions_distinct (s : AppQueueState) (ids : List String)
    (hnd : ids.Nodup) (hfresh : ∀ id ∈ ids, s.position_map.lookup id = none) :
    (assignPositions s ids).1.Nodup ∧
    (assignPositions s ids).1.length = ids.length ∧
    (assignPositions s ids).1.toFinset.card = ids.length := by
  rw [assignPositions_fresh ids s hnd hfresh]
  refine ⟨List.nodup_range' _ _, by rw [List.length_range'], ?_⟩
  rw [List.toFinset_card_of_nodup (List.nodup_range' _ _), List.length_range']

theorem C1_witness :
    (assignPositions ⟨false, none, [], [], 0⟩ ["a", "b", "c"]).1.Nodup ∧
    (assignPositions ⟨false, none, [], [], 0⟩ ["a", "b", "c"]).1.length = 3 ∧
    (assignPositions ⟨false, none, [], [], 0⟩ ["a", "b", "c"]).1.toFinset.card = 3 :=
  C1_concurrent_positions_distinct ⟨false, none, [], [], 0⟩ ["a", "b", "c"]
    (by decide) (by decide)

-- ===== C6 =====

/-- C6: whatever way a `session_chat` request resolves, its queue entry is
    removed and the generating flag and generating-session marker are clear
    afterwards; and the two deadline outcomes are distinguished exactly:
    the waiting-timeout 503 detail appears iff the deadline fired before the
    lock was acquired, and the generation-timeout 503 detail appears iff it
    fired during generation. -/
theorem C6_timeout_cleanup (s : AppQueueState) (sid : String) (scen : ChatScenario)
    (hgen : s.generation_in_progress = false)
    (hq : sid ∉ s.queued_session_ids)
    (hm : s.position_map.lookup sid = none) :
    ((sessionChatRun s sid scen).2.position_map.lookup sid = none ∧
     sid ∉ (sessionChatRun s sid scen).2.queued_session_ids ∧
     (sessionChatRun s sid scen).2.generation_in_progress = false ∧
     (sessionChatRun s sid scen).2.generating_session_id ≠ some sid) ∧
    ((sessionChatRun s sid scen).1 = ChatOutcome.httpError 503 waitingTimeoutDetail ↔
      scen = ChatScenario.timeoutWaiting) ∧
    ((sessionChatRun s sid scen).1 = ChatOutcome.httpError 503 generationTimeoutDetail ↔
      scen = ChatScenario.timeoutGenerating) := by
  have hadd : (add_to_queue s sid).2 =
      { s with
        next_position := s.next_position + 1,
        position_map := (sid, s.next_position) :: s.position_map,
        queued_session_ids := s.queued_session_ids ++ [sid] } := by
    simp [add_to_queue, hm, if_neg hq]
  have herase : (s.queued_session_ids ++ [sid]).erase sid = s.queued_session_ids := by
    rw [List.erase_append_right _ hq, List.erase_cons_head, List.append_nil]
  have heraseP :
      List.eraseP (fun kv => kv.1 == sid) ((sid, s.next_position) :: s.position_map) =
        s.position_map :=
    List.eraseP_cons_of_pos (by simp)
  have hdetail : waitingTimeoutDetail ≠ generationTimeoutDetail := by decide
  have hrm1 : remove_from_queue ((add_to_queue s sid).2) sid =
      { s with
        next_position := s.next_position + 1,
        generating_session_id :=
          if s.generating_session_id = some sid then none
          else s.generating_session_id } := by
    rw [hadd]
    simp [remove_from_queue, herase, heraseP]
  have hrm2 : remove_from_queue
      (set_generating (set_generating ((add_to_queue s sid).2) true (some sid))
        false none) sid =
      { s with
        generation_in_progress := false,
        generating_session_id := none,
        next_position := s.next_position + 1 } := by
    rw [hadd]
    simp [remove_from_queue, set_generating, herase, heraseP]
  have hgsid1 : (if s.generating_session_id = some sid then none
      else s.generating_session_id) ≠ some sid := by
    by_cases hg : s.generating_session_id = some sid <;> simp [hg]
  cases scen with
  | timeoutWaiting =>
      refine ⟨?_, by simp [sessionChatRun], by simp [sessionChatRun, hdetail]⟩
      rw [show (sessionChatRun s sid ChatScenario.timeoutWaiting).2 =
            remove_from_queue ((add_to_queue s sid).2) sid from rfl, hrm1]
      exact ⟨hm, hq, hgen, hgsid1⟩
  | timeoutGenerating =>
      have hdetail2 : generationTimeoutDetail ≠ waitingTimeoutDetail := Ne.symm hdetail
      refine ⟨?_, by simp [sessionChatRun, hdetail2], by simp [sessionChatRun]⟩
      rw [show (sessionChatRun s sid ChatScenario.timeoutGenerating).2 =
            remove_from_queue
              (set_generating (set_generating ((add_to_queue s sid).2) true (some sid))
                false none) sid from rfl, hrm2]
      exact ⟨hm, hq, rfl, by simp⟩
  | success result =>
      refine ⟨?_, by simp [sessionChatRun], by simp [sessionChatRun]⟩
      rw [show (sessionChatRun s sid (ChatScenario.success result)).2 =
            remove_from_queue
              (set_generating (set_generating ((add_to_queue s sid).2) true (some sid))
                false none) sid from rfl, hrm2]
      exact ⟨hm, hq, rfl, by simp⟩
  | failure msg =>
      refine ⟨?_, by simp [sessionChatRun], by simp [sessionChatRun]⟩
      rw [show (sessionChatRun s sid (ChatScenario.failure msg)).2 =
            remove_from_queue
              (set_generating (set_generating ((add_to_queue s sid).2) true (some sid))
                false none) sid from rfl, hrm2]
      exact ⟨hm, hq, rfl, by simp⟩

theorem C6_witness :
    ((sessionChatRun ⟨false, none, [], [], 0⟩ "s" ChatScenario.timeoutWaiting).2.position_map.lookup "s" = none ∧
     "s" ∉ (sessionChatRun ⟨false, none, [], [], 0⟩ "s" ChatScenario.timeoutWaiting).2.queued_session_ids ∧
     (sessionChatRun ⟨false, none, [], [], 0⟩ "s" ChatScenario.timeoutWaiting).2.generation_in_progress = false ∧
     (sessionChatRun ⟨false, none, [], [], 0⟩ "s" ChatScenario.timeoutWaiting).2.generating_session_id ≠ some "s") ∧
    ((sessionChatRun ⟨false, none, [], [], 0⟩ "s" ChatScenario.timeoutWaiting).1 =
        ChatOutcome.httpError 503 waitingTimeoutDetail ↔
      ChatScenario.timeoutWaiting = ChatScenario.timeoutWaiting) ∧
    ((sessionChatRun ⟨false, none, [], [], 0⟩ "s" ChatScenario.timeoutWaiting).1 =
        ChatOutcome.httpError 503 generationTimeoutDetail ↔
      ChatScenario.timeoutWaiting = ChatScenario.timeoutGenerating) :=
  C6_timeout_cleanup ⟨false, none, [], [], 0⟩ "s" ChatScenario.timeoutWaiting
    rfl (by simp) rfl

-- ===== C3 =====

theorem escapeChar_plain (c : Char) (h1 : 0x20 ≤ c.toNat) (h2 : c.toNat ≤ 0x7e)
    (h3 : c ≠ '"') (h4 : c ≠ '\\') : escapeChar c = [c] := by
  have hn : c ≠ '\n' := by intro h; subst h; exact absurd h1 (by decide)
  have hr : c ≠ '\r' := by intro h; subst h; exact absurd h1 (by decide)
  have ht : c ≠ '\t' := by intro h; subst h; exact absurd h1 (by decide)
  have hb : c ≠ '\x08' := by intro h; subst h; exact absurd h1 (by decide)
  have hf : c ≠ '\x0c' := by intro h; subst h; exact absurd h1 (by decide)
  simp [escapeChar, h3, h4, hn, hr, ht, hb, hf, h1, h2]

theorem flatten_map_escape (l : List Char) (h : ∀ c ∈ l, escapeChar c = [c]) :
    (l.map escapeChar).flatten = l := by
  induction l with
  | nil => rfl
  | cons c rest ih =>
      simp only [List.map_cons, List.flatten_cons, h c (List.mem_cons_self c rest)]
      rw [ih (fun x hx => h x (List.mem_cons_of_mem _ hx))]
      rfl

theorem pyJsonEscape_plain (s : String) (h : asciiPlain s = true) :
    pyJsonEscape s = s := by
  apply String.ext
  show (s.data.map escapeChar).flatten = s.data
  apply flatten_map_escape
  intro c hc
  have hall := (List.all_eq_true.mp h) c hc
  simp only [Bool.and_eq_true, decide_eq_true_eq, bne_iff_ne, ne_eq] at hall
  exact escapeChar_plain c hall.1.1.1 hall.1.1.2 hall.1.2 hall.2

theorem asciiPlain_append (a b : String) :
    asciiPlain (a ++ b) = (asciiPlain a && asciiPlain b) := by
  simp [asciiPlain, String.data_append, List.all_append]

theorem jsonErrorString_plain (pre t : String) (hp : asciiPlain pre = true)
    (ht : asciiPlain t = true) :
    jsonErrorString (pre ++ t) =
      "\x7b\"error\": \"" ++ pre ++ t ++ "\"\x7d" := by
  unfold jsonErrorString
  rw [pyJsonEscape_plain _ (by rw [asciiPlain_append, hp, ht]; rfl)]
  rw [← String.append_assoc]

/-- C3: the registry's execution paths are total and produce exact error
    envelopes: an unregistered name yields the JSON string
    `{"error": "Unknown tool: <name>"}` from both `execute` and
    `execute_async`, and a tool body that raises yields
    `{"error": "Tool execution failed: <message>"}` with the exception's
    message (the side conditions assume the interpolated strings need no
    JSON escaping, so the output is literally as the claim writes it). -/
theorem C3_registry_error_envelopes (reg : List MTool) (name : String)
    (args : List (String × PyJson)) :
    (lookupTool reg name = none → asciiPlain name = true →
      registryExecute reg name args =
        "\x7b\"error\": \"Unknown tool: " ++ name ++ "\"\x7d" ∧
      registryExecuteAsync reg name args =
        "\x7b\"error\": \"Unknown tool: " ++ name ++ "\"\x7d") ∧
    (∀ tool msg, lookupTool reg name = some tool →
      tool.run args = Except.error msg → asciiPlain msg = true →
      (tool.isAsync = false →
        registryExecute reg name args =
          "\x7b\"error\": \"Tool execution failed: " ++ msg ++ "\"\x7d") ∧
      registryExecuteAsync reg name args =
        "\x7b\"error\": \"Tool execution failed: " ++ msg ++ "\"\x7d") := by
  constructor
  · intro hl hname
    have h := jsonErrorString_plain "Unknown tool: " name (by decide) hname
    constructor
    · have e1 : registryExecute reg name args =
          jsonErrorString ("Unknown tool: " ++ name) := by
        simp [registryExecute, hl]
      rw [e1, h]
      rfl
    · have e2 : registryExecuteAsync reg name args =
          jsonErrorString ("Unknown tool: " ++ name) := by
        simp [registryExecuteAsync, hl]
      rw [e2, h]
      rfl
  · intro tool msg hl hrun hmsg
    have h := jsonErrorString_plain "Tool execution failed: " msg (by decide) hmsg
    constructor
    · intro hsync
      have e1 : registryExecute reg name args =
          jsonErrorString ("Tool execution failed: " ++ msg) := by
        simp [registryExecute, hl, hsync, hrun]
      rw [e1, h]
      rfl
    · have e2 : registryExecuteAsync reg name args =
          jsonErrorString ("Tool execution failed: " ++ msg) := by
        simp [registryExecuteAsync, hl, hrun]
      rw [e2, h]
      rfl

theorem C3_witness :
    (registryExecute [] "ghost" [] = "\x7b\"error\": \"Unknown tool: ghost\"\x7d" ∧
     registryExecuteAsync [] "ghost" [] = "\x7b\"error\": \"Unknown tool: ghost\"\x7d") ∧
    registryExecuteAsync
        [⟨"boom", "\x7b\x7d", false, fun _ => Except.error "kaput"⟩] "boom" [] =
      "\x7b\"error\": \"Tool execution failed: kaput\"\x7d" :=
  ⟨(C3_registry_error_envelopes [] "ghost" []).1 rfl (by decide),
   ((C3_registry_error_envelopes
      [⟨"boom", "\x7b\x7d", false, fun _ => Except.error "kaput"⟩] "boom" []).2
      ⟨"boom", "\x7b\x7d", false, fun _ => Except.error "kaput"⟩ "kaput"
      rfl rfl (by decide)).2⟩

-- ===== C4 =====

theorem parseLoop_eq (loads : String → Option (List (String × PyJson))) :
    ∀ (ms : List (List Char)) (calls : List ToolCall),
      parseLoop loads ms calls =
        calls ++ ms.filterMap (fun m => (loads ⟨m⟩).map mkToolCall) := by
  intro ms
  induction ms with
  | nil => intro calls; simp [parseLoop]
  | cons m rest ih =>
      intro calls
      match hl : loads ⟨m⟩ with
      | some fields => simp [parseLoop, hl, ih, List.filterMap_cons]
      | none => simp [parseLoop, hl, ih, List.filterMap_cons]

/-- C4: `parse_tool_calls` is total on every input string (it returns a
    list; the only exception the Python body can raise is the caught
    `JSONDecodeError`), and it maps the fenced blocks in scanning order
    through the JSON decoder, keeping exactly the blocks that decode and
    dropping exactly the ones that do not. -/
theorem C4_parse_tool_calls_filter (loads : String → Option (List (String × PyJson)))
    (response : String) :
    parse_tool_calls loads response =
      (toolCallBlocks response).filterMap (fun m => (loads ⟨m⟩).map mkToolCall) ∧
    (∀ m ∈ toolCallBlocks response, ∀ fields, loads ⟨m⟩ = some fields →
      mkToolCall fields ∈ parse_tool_calls loads response) := by
  have h1 : parse_tool_calls loads response =
      (toolCallBlocks response).filterMap (fun m => (loads ⟨m⟩).map mkToolCall) := by
    rw [parse_tool_calls, parseLoop_eq]
    rfl
  refine ⟨h1, ?_⟩
  intro m hm fields hf
  rw [h1]
  exact List.mem_filterMap.mpr ⟨m, hm, by rw [hf]; rfl⟩

theorem C4_witness :
    parse_tool_calls
        (fun s => if s = "\x7b\"a\": 1\x7d" then some [("a", PyJson.num 1)] else none)
        "<tool_call>\x7b\"a\": 1\x7d</tool_call><tool_call>\x7bbad\x7d</tool_call>" =
      (toolCallBlocks
          "<tool_call>\x7b\"a\": 1\x7d</tool_call><tool_call>\x7bbad\x7d</tool_call>").filterMap
        (fun m =>
          ((fun s => if s = "\x7b\"a\": 1\x7d" then some [("a", PyJson.num 1)] else none)
              (⟨m⟩ : String)).map mkToolCall) ∧
    mkToolCall [("a", PyJson.num 1)] ∈
      parse_tool_calls
        (fun s => if s = "\x7b\"a\": 1\x7d" then some [("a", PyJson.num 1)] else none)
        "<tool_call>\x7b\"a\": 1\x7d</tool_call><tool_call>\x7bbad\x7d</tool_call>" :=
  ⟨(C4_parse_tool_calls_filter _ _).1,
   (C4_parse_tool_calls_filter _ _).2 ("\x7b\"a\": 1\x7d".data) (by decide)
     [("a", PyJson.num 1)] rfl⟩

-- ===== Loop step equations (chat.py, rounds of chat / chat_async) =====

theorem chatGo_step_nudge {gen : List ChatMessage → String}
    {ex : String → List (String × PyJson) → String}
    {loads : String → Option (List (String × PyJson))}
    {profile : Profile} {sp : String} {n round_num : Nat}
    {conversation : List ChatMessage} {allCalls : List ToolCall}
    {allResults : List ToolResult} {lastResp : String}
    (hp : parse_tool_calls loads (gen (build_messages sp conversation)) = [])
    (hc : hasSubStr "<think>" (gen (build_messages sp conversation)) = true ∧
      (extract_final_response (gen (build_messages sp conversation))).length < 50 ∧
      round_num < 3 ∧ profile.tools.isEmpty = false) :
    chatGo gen ex loads profile sp (n + 1) round_num conversation allCalls
        allResults lastResp =
      chatGo gen ex loads profile sp n (round_num + 1)
        (conversation ++
          [ChatMessage.mk "assistant" (gen (build_messages sp conversation)),
           ChatMessage.mk "user" nudgeMessage])
        allCalls allResults (gen (build_messages sp conversation)) := by
  simp only [chatGo, hp]
  rw [if_pos hc]

theorem chatGo_step_terminal {gen : List ChatMessage → String}
    {ex : String → List (String × PyJson) → String}
    {loads : String → Option (List (String × PyJson))}
    {profile : Profile} {sp : String} {n round_num : Nat}
    {conversation : List ChatMessage} {allCalls : List ToolCall}
    {allResults : List ToolResult} {lastResp : String}
    (hp : parse_tool_calls loads (gen (build_messages sp conversation)) = [])
    (hc : ¬(hasSubStr "<think>" (gen (build_messages sp conversation)) = true ∧
      (extract_final_response (gen (build_messages sp conversation))).length < 50 ∧
      round_num < 3 ∧ profile.tools.isEmpty = false)) :
    chatGo gen ex loads profile sp (n + 1) round_num conversation allCalls
        allResults lastResp =
      ChatResponse.mk (extract_final_response (gen (build_messages sp conversation)))
        allCalls allResults (round_num + 1) true := by
  simp only [chatGo, hp]
  rw [if_neg hc]

theorem chatGo_step_tools {gen : List ChatMessage → String}
    {ex : String → List (String × PyJson) → String}
    {loads : String → Option (List (String × PyJson))}
    {profile : Profile} {sp : String} {n round_num : Nat}
    {conversation : List ChatMessage} {allCalls : List ToolCall}
    {allResults : List ToolResult} {lastResp : String}
    {tc : ToolCall} {tcs : List ToolCall}
    (hp : parse_tool_calls loads (gen (build_messages sp conversation)) = tc :: tcs) :
    chatGo gen ex loads profile sp (n + 1) round_num conversation allCalls
        allResults lastResp =
      chatGo gen ex loads profile sp n (round_num + 1)
        (conversation ++
          [ChatMessage.mk "assistant" (gen (build_messages sp conversation)),
           ChatMessage.mk "user" (format_tool_results ((tc :: tcs).map
             (fun c => ToolResult.mk c.name (ex c.name c.arguments))))])
        (allCalls ++ (tc :: tcs))
        (allResults ++ (tc :: tcs).map (fun c => ToolResult.mk c.name (ex c.name c.arguments)))
        (gen (build_messages sp conversation)) := by
  simp only [chatGo, hp]

theorem chatLastResponse_step_nudge {gen : List ChatMessage → String}
    {ex : String → List (String × PyJson) → String}
    {loads : String → Option (List (String × PyJson))}
    {profile : Profile} {sp : String} {n round_num : Nat}
    {conversation : List ChatMessage} {lastResp : String}
    (hp : parse_tool_calls loads (gen (build_messages sp conversation)) = [])
    (hc : hasSubStr "<think>" (gen (build_messages sp conversation)) = true ∧
      (extract_final_response (gen (build_messages sp conversation))).length < 50 ∧
      round_num < 3 ∧ profile.tools.isEmpty = false) :
    chatLastResponse gen ex loads profile sp (n + 1) round_num conversation lastResp =
      chatLastResponse gen ex loads profile sp n (round_num + 1)
        (conversation ++
          [ChatMessage.mk "assistant" (gen (build_messages sp conversation)),
           ChatMessage.mk "user" nudgeMessage])
        (gen (build_messages sp conversation)) := by
  simp only [chatLastResponse, hp]
  rw [if_pos hc]

theorem chatLastResponse_step_terminal {gen : List ChatMessage → String}
    {ex : String → List (String × PyJson) → String}
    {loads : String → Option (List (String × PyJson))}
    {profile : Profile} {sp : String} {n round_num : Nat}
    {conversation : List ChatMessage} {lastResp : String}
    (hp : parse_tool_calls loads (gen (build_messages sp conversation)) = [])
    (hc : ¬(hasSubStr "<think>" (gen (build_messages sp conversation)) = true ∧
      (extract_final_response (gen (build_messages sp conversation))).length < 50 ∧
      round_num < 3 ∧ profile.tools.isEmpty = false)) :
    chatLastResponse gen ex loads profile sp (n + 1) round_num conversation lastResp =
      gen (build_messages sp conversation) := by
  simp only [chatLastResponse, hp]
  rw [if_neg hc]

theorem chatLastResponse_step_tools {gen : List ChatMessage → String}
    {ex : String → List (String × PyJson) → String}
    {loads : String → Option (List (String × PyJson))}
    {profile : Profile} {sp : String} {n round_num : Nat}
    {conversation : List ChatMessage} {lastResp : String}
    {tc : ToolCall} {tcs : List ToolCall}
    (hp : parse_tool_calls loads (gen (build_messages sp conversation)) = tc :: tcs) :
    chatLastResponse gen ex loads profile sp (n + 1) round_num conversation lastResp =
      chatLastResponse gen ex loads profile sp n (round_num + 1)
        (conversation ++
          [ChatMessage.mk "assistant" (gen (build_messages sp conversation)),
           ChatMessage.mk "user" (format_tool_results ((tc :: tcs).map
             (fun c => ToolResult.mk c.name (ex c.name c.arguments))))])
        (gen (build_messages sp conversation)) := by
  simp only [chatLastResponse, hp]

/-- The response component of the async loop coincides with the sync loop run
    with the registry's async execution path. -/
theorem chatAsyncGo_fst (gen : List ChatMessage → String) (reg : List MTool)
    (loads : String → Option (List (String × PyJson)))
    (profile : Profile) (sp : String) :
    ∀ (remaining round_num : Nat) (conversation : List ChatMessage)
      (allCalls : List ToolCall) (allResults : List ToolResult) (response : String),
      (chatAsyncGo gen reg loads profile sp remaining round_num conversation
        allCalls allResults response).1 =
      chatGo gen (registryExecuteAsync reg) loads profile sp remaining round_num
        conversation allCalls allResults response := by
  intro remaining
  induction remaining with
  | zero => intro round_num conversation allCalls allResults response; rfl
  | succ n ih =>
      intro round_num conversation allCalls allResults response
      simp only [chatAsyncGo, chatGo]
      cases hp : parse_tool_calls loads (gen (build_messages sp conversation)) with
      | nil =>
          by_cases hc : hasSubStr "<think>" (gen (build_messages sp conversation)) = true ∧
              (extract_final_response (gen (build_messages sp conversation))).length < 50 ∧
              round_num < 3 ∧ profile.tools.isEmpty = false
          · rw [if_pos hc, if_pos hc]
            exact ih _ _ _ _ _
          · rw [if_neg hc, if_neg hc]
      | cons tc tcs => exact ih _ _ _ _ _

/-- Loop invariant behind C2: with `round_num + remaining = max_tool_rounds`,
    the loop uses at most the round budget; when it exhausts it (terminal
    branch never taken), it reports exactly the budget, `finished = false`,
    and the content extracted from the last generated response. -/
theorem chatGo_spec (gen : List ChatMessage → String)
    (ex : String → List (String × PyJson) → String)
    (loads : String → Option (List (String × PyJson)))
    (profile : Profile) (sp : String) :
    ∀ (remaining round_num : Nat) (conversation : List ChatMessage)
      (allCalls : List ToolCall) (allResults : List ToolResult) (response : String),
      round_num + remaining = profile.max_tool_rounds →
      (chatGo gen ex loads profile sp remaining round_num conversation allCalls
          allResults response).rounds_used ≤ profile.max_tool_rounds ∧
      ((chatGo gen ex loads profile sp remaining round_num conversation allCalls
          allResults response).finished = false →
        (chatGo gen ex loads profile sp remaining round_num conversation allCalls
            allResults response).rounds_used = profile.max_tool_rounds ∧
        (chatGo gen ex loads profile sp remaining round_num conversation allCalls
            allResults response).content =
          extract_final_response (chatLastResponse gen ex loads profile sp
            remaining round_num conversation response)) := by
  intro remaining
  induction remaining with
  | zero =>
      intro round_num conversation allCalls allResults response h
      simp [chatGo, chatLastResponse]
  | succ n ih =>
      intro round_num conversation allCalls allResults response h
      cases hp : parse_tool_calls loads (gen (build_messages sp conversation)) with
      | nil =>
          by_cases hc : hasSubStr "<think>" (gen (build_messages sp conversation)) = true ∧
              (extract_final_response (gen (build_messages sp conversation))).length < 50 ∧
              round_num < 3 ∧ profile.tools.isEmpty = false
          · rw [chatGo_step_nudge hp hc, chatLastResponse_step_nudge hp hc]
            exact ih (round_num + 1) _ _ _ _ (by omega)
          · rw [chatGo_step_terminal hp hc]
            refine ⟨by simp; omega, ?_⟩
            intro hfin
            exact absurd hfin (by simp)
      | cons tc tcs =>
          rw [chatGo_step_tools hp, chatLastResponse_step_tools hp]
          exact ih (round_num + 1) _ _ _ _ (by omega)

-- ===== C2 =====

/-- C2: for every profile (found under its name) and every backend, registry,
    decoder, history and message, both `chat` and `chat_async` use at most
    `max_tool_rounds` rounds; and whenever no round ended in the terminal
    (tool-call-free, non-nudged) branch — which is exactly when
    `finished = false` — the reported `rounds_used` equals `max_tool_rounds`
    and the content is `extract_final_response` of the last backend
    response. -/
theorem C2_round_budget (gen : List ChatMessage → String) (reg : List MTool)
    (loads : String → Option (List (String × PyJson)))
    (getProf : String → Option Profile)
    (user_message profile_name : String) (history : List ChatMessage)
    (profile : Profile) (hprof : getProf profile_name = some profile) :
    ((chat gen reg loads getProf user_message profile_name history).rounds_used ≤
        profile.max_tool_rounds ∧
      ((chat gen reg loads getProf user_message profile_name history).finished = false →
        (chat gen reg loads getProf user_message profile_name history).rounds_used =
          profile.max_tool_rounds ∧
        (chat gen reg loads getProf user_message profile_name history).content =
          extract_final_response (chatLastResponse gen (registryExecute reg) loads
            profile (build_system_prompt profile) profile.max_tool_rounds 0
            (history ++ [ChatMessage.mk "user" user_message]) ""))) ∧
    ((chat_async gen reg loads getProf user_message profile_name history).1.rounds_used ≤
        profile.max_tool_rounds ∧
      ((chat_async gen reg loads getProf user_message profile_name history).1.finished =
          false →
        (chat_async gen reg loads getProf user_message profile_name history).1.rounds_used =
          profile.max_tool_rounds ∧
        (chat_async gen reg loads getProf user_message profile_name history).1.content =
          extract_final_response (chatLastResponse gen (registryExecuteAsync reg) loads
            profile (build_system_prompt profile) profile.max_tool_rounds 0
            (history ++ [ChatMessage.mk "user" user_message]) ""))) := by
  have hs : chat gen reg loads getProf user_message profile_name history =
      chatGo gen (registryExecute reg) loads profile (build_system_prompt profile)
        profile.max_tool_rounds 0
        (history ++ [ChatMessage.mk "user" user_message]) [] [] "" := by
    simp [chat, hprof]
  have ha : (chat_async gen reg loads getProf user_message profile_name history).1 =
      chatGo gen (registryExecuteAsync reg) loads profile (build_system_prompt profile)
        profile.max_tool_rounds 0
        (history ++ [ChatMessage.mk "user" user_message]) [] [] "" := by
    have hu : chat_async gen reg loads getProf user_message profile_name history =
        chatAsyncGo gen reg loads profile (build_system_prompt profile)
          profile.max_tool_rounds 0
          (history ++ [ChatMessage.mk "user" user_message]) [] [] "" := by
      simp [chat_async, hprof]
    rw [hu]
    exact chatAsyncGo_fst gen reg loads profile (build_system_prompt profile) _ _ _ _ _ _
  rw [hs, ha]
  exact ⟨chatGo_spec gen (registryExecute reg) loads profile (build_system_prompt profile)
      profile.max_tool_rounds 0 _ [] [] "" (by omega),
    chatGo_spec gen (registryExecuteAsync reg) loads profile (build_system_prompt profile)
      profile.max_tool_rounds 0 _ [] [] "" (by omega)⟩

theorem C2_witness :
    ((chat wGen [wTool] wLoads wGetProf "hi" "p" []).rounds_used ≤
        wProfile.max_tool_rounds ∧
      ((chat wGen [wTool] wLoads wGetProf "hi" "p" []).finished = false →
        (chat wGen [wTool] wLoads wGetProf "hi" "p" []).rounds_used =
          wProfile.max_tool_rounds ∧
        (chat wGen [wTool] wLoads wGetProf "hi" "p" []).content =
          extract_final_response (chatLastResponse wGen (registryExecute [wTool]) wLoads
            wProfile (build_system_prompt wProfile) wProfile.max_tool_rounds 0
            ([] ++ [ChatMessage.mk "user" "hi"]) ""))) ∧
    ((chat_async wGen [wTool] wLoads wGetProf "hi" "p" []).1.rounds_used ≤
        wProfile.max_tool_rounds ∧
      ((chat_async wGen [wTool] wLoads wGetProf "hi" "p" []).1.finished = false →
        (chat_async wGen [wTool] wLoads wGetProf "hi" "p" []).1.rounds_used =
          wProfile.max_tool_rounds ∧
        (chat_async wGen [wTool] wLoads wGetProf "hi" "p" []).1.content =
          extract_final_response (chatLastResponse wGen (registryExecuteAsync [wTool]) wLoads
            wProfile (build_system_prompt wProfile) wProfile.max_tool_rounds 0
            ([] ++ [ChatMessage.mk "user" "hi"]) ""))) :=
  C2_round_budget wGen [wTool] wLoads wGetProf "hi" "p" [] wProfile rfl

-- ===== C5 =====

/-- C5: in a round whose response parses to zero tool calls, the loop (sync
    and async alike) appends the raw response plus the synthetic user nudge
    and continues to the next round exactly when the response contains a
    reasoning fence, the extracted content is shorter than 50 characters,
    the round index is below 3 and the profile has at least one tool;
    otherwise it terminates that round with `finished = true`. -/
theorem C5_nudge_condition (gen : List ChatMessage → String) (reg : List MTool)
    (ex : String → List (String × PyJson) → String)
    (loads : String → Option (List (String × PyJson)))
    (profile : Profile) (sp : String) (remaining round_num : Nat)
    (conversation : List ChatMessage) (allCalls : List ToolCall)
    (allResults : List ToolResult) (lastResp response : String)
    (hresp : gen (build_messages sp conversation) = response)
    (hp : parse_tool_calls loads response = []) :
    ((hasSubStr "<think>" response = true ∧
      (extract_final_response response).length < 50 ∧
      round_num < 3 ∧ profile.tools ≠ []) →
      chatGo gen ex loads profile sp (remaining + 1) round_num conversation
          allCalls allResults lastResp =
        chatGo gen ex loads profile sp remaining (round_num + 1)
          (conversation ++ [ChatMessage.mk "assistant" response,
                            ChatMessage.mk "user" nudgeMessage])
          allCalls allResults response ∧
      (chatAsyncGo gen reg loads profile sp (remaining + 1) round_num conversation
          allCalls allResults lastResp).1 =
        (chatAsyncGo gen reg loads profile sp remaining (round_num + 1)
          (conversation ++ [ChatMessage.mk "assistant" response,
                            ChatMessage.mk "user" nudgeMessage])
          allCalls allResults response).1) ∧
    (¬(hasSubStr "<think>" response = true ∧
      (extract_final_response response).length < 50 ∧
      round_num < 3 ∧ profile.tools ≠ []) →
      chatGo gen ex loads profile sp (remaining + 1) round_num conversation
          allCalls allResults lastResp =
        ChatResponse.mk (extract_final_response response) allCalls allResults
          (round_num + 1) true ∧
      (chatAsyncGo gen reg loads profile sp (remaining + 1) round_num conversation
          allCalls allResults lastResp).1 =
        ChatResponse.mk (extract_final_response response) allCalls allResults
          (round_num + 1) true) := by
  subst hresp
  have hiff : (hasSubStr "<think>" (gen (build_messages sp conversation)) = true ∧
      (extract_final_response (gen (build_messages sp conversation))).length < 50 ∧
      round_num < 3 ∧ profile.tools ≠ []) ↔
      (hasSubStr "<think>" (gen (build_messages sp conversation)) = true ∧
      (extract_final_response (gen (build_messages sp conversation))).length < 50 ∧
      round_num < 3 ∧ profile.tools.isEmpty = false) := by
    rw [List.isEmpty_eq_false]
  constructor
  · intro hc
    have hc' := hiff.mp hc
    refine ⟨chatGo_step_nudge hp hc', ?_⟩
    rw [chatAsyncGo_fst, chatAsyncGo_fst]
    exact chatGo_step_nudge hp hc'
  · intro hc
    have hc' : ¬(hasSubStr "<think>" (gen (build_messages sp conversation)) = true ∧
        (extract_final_response (gen (build_messages sp conversation))).length < 50 ∧
        round_num < 3 ∧ profile.tools.isEmpty = false) := fun h => hc (hiff.mpr h)
    refine ⟨chatGo_step_terminal hp hc', ?_⟩
    rw [chatAsyncGo_fst]
    exact chatGo_step_terminal hp hc'

theorem C5_witness :
    chatGo wGenThink (registryExecute [wTool]) wLoads wProfile "sys" 1 0 [] [] [] "" =
      chatGo wGenThink (registryExecute [wTool]) wLoads wProfile "sys" 0 1
        ([] ++ [ChatMessage.mk "assistant" "<think>mm</think>",
                ChatMessage.mk "user" nudgeMessage]) [] [] "<think>mm</think>" ∧
    (chatAsyncGo wGenThink [wTool] wLoads wProfile "sys" 1 0 [] [] [] "").1 =
      (chatAsyncGo wGenThink [wTool] wLoads wProfile "sys" 0 1
        ([] ++ [ChatMessage.mk "assistant" "<think>mm</think>",
                ChatMessage.mk "user" nudgeMessage]) [] [] "<think>mm</think>").1 :=
  (C5_nudge_condition wGenThink [wTool] (registryExecute [wTool]) wLoads wProfile "sys" 0 0
      [] [] [] "" "<think>mm</think>" rfl rfl).1
    ⟨by decide, by decide, by decide, by simp [wProfile]⟩

-- ===== Fence-scanner lemmas (towards C7) =====

theorem isPrefixOf_length {p l : List Char} (h : p.isPrefixOf l = true) :
    p.length ≤ l.length := by
  induction p generalizing l with
  | nil => simp
  | cons a as ih =>
      cases l with
      | nil => simp [List.isPrefixOf] at h
      | cons b bs =>
          simp only [List.isPrefixOf, Bool.and_eq_true] at h
          simpa [List.length_cons] using Nat.succ_le_succ (ih h.2)

theorem isPrefixOf_append_self (p x : List Char) : p.isPrefixOf (p ++ x) = true := by
  induction p with
  | nil => simp [List.isPrefixOf]
  | cons a as ih => simp [List.isPrefixOf, ih]

theorem isPrefixOf_cons_ne {o c : Char} {op rest : List Char} (h : c ≠ o) :
    ((o :: op).isPrefixOf (c :: rest)) = false := by
  have hb : (o == c) = false := beq_false_of_ne (fun hh => h hh.symm)
  simp [List.isPrefixOf, hb]

theorem dtc_le {cl : List Char} : ∀ {l r : List Char},
    dropThroughClose cl l = some r → r.length ≤ l.length := by
  intro l
  induction l with
  | nil =>
      intro r h
      unfold dropThroughClose at h
      split at h
      · cases h; simp
      · cases h
  | cons c rest ih =>
      intro r h
      unfold dropThroughClose at h
      split at h
      · cases h
        simp [List.length_drop]
      · exact le_trans (ih h) (by simp)

theorem tryFence_some_lt {o : Char} {op cl l r : List Char}
    (h : tryFence (o :: op) cl l = some r) : r.length < l.length := by
  unfold tryFence at h
  split at h
  · rename_i hpre
    have h1 := dtc_le h
    have h2 : (o :: op).length ≤ l.length := isPrefixOf_length hpre
    rw [List.length_drop] at h1
    simp only [List.length_cons] at h1 h2
    omega
  · cases h

theorem subFenceF_congr {o : Char} {op cl : List Char} :
    ∀ (f1 : Nat) {f2 : Nat} {l : List Char}, l.length ≤ f1 → l.length ≤ f2 →
      subFenceF (o :: op) cl f1 l = subFenceF (o :: op) cl f2 l := by
  intro f1
  induction f1 with
  | zero =>
      intro f2 l h1 h2
      have hl : l = [] := List.eq_nil_of_length_eq_zero (Nat.le_zero.mp h1)
      subst hl
      cases f2 <;> rfl
  | succ n ih =>
      intro f2 l h1 h2
      cases l with
      | nil => cases f2 <;> rfl
      | cons c rest =>
          cases f2 with
          | zero => exact absurd h2 (by simp)
          | succ m =>
              cases htf : tryFence (o :: op) cl (c :: rest) with
              | some r =>
                  have hlt := tryFence_some_lt htf
                  simp only [List.length_cons] at hlt h1 h2
                  simp only [subFenceF, htf]
                  exact ih (by omega) (by omega)
              | none =>
                  simp only [List.length_cons] at h1 h2
                  simp only [subFenceF, htf]
                  have e1 : subFenceF (o :: op) cl n rest = subFenceF (o :: op) cl m rest :=
                    ih (by omega) (by omega)
                  rw [e1]

theorem subFence_cons_some {o : Char} {op cl : List Char} {c : Char} {rest r : List Char}
    (h : tryFence (o :: op) cl (c :: rest) = some r) :
    subFence (o :: op) cl (c :: rest) = subFence (o :: op) cl r := by
  have hlt := tryFence_some_lt h
  simp only [List.length_cons] at hlt
  unfold subFence
  simp only [List.length_cons, subFenceF, h]
  exact subFenceF_congr _ (by omega) (le_refl _)

theorem subFence_cons_none {o : Char} {op cl : List Char} {c : Char} {rest : List Char}
    (h : tryFence (o :: op) cl (c :: rest) = none) :
    subFence (o :: op) cl (c :: rest) = c :: subFence (o :: op) cl rest := by
  unfold subFence
  simp only [List.length_cons, subFenceF, h]

theorem subFence_no_open {o : Char} {op cl : List Char} :
    ∀ {l : List Char}, hasSub (o :: op) l = false → subFence (o :: op) cl l = l := by
  intro l
  induction l with
  | nil => intro h; rfl
  | cons c rest ih =>
      intro h
      simp only [hasSub, Bool.or_eq_false_iff] at h
      rw [subFence_cons_none (by simp [tryFence, h.1]), ih h.2]

theorem subFence_safe_append {o : Char} {op cl : List Char} :
    ∀ (text z : List Char), (∀ ch ∈ text, ch ≠ o) →
      subFence (o :: op) cl (text ++ z) = text ++ subFence (o :: op) cl z := by
  intro text
  induction text with
  | nil => intro z h; simp
  | cons c t ih =>
      intro z h
      have hc : c ≠ o := h c (List.mem_cons_self c t)
      have htf : tryFence (o :: op) cl (c :: (t ++ z)) = none := by
        simp [tryFence, isPrefixOf_cons_ne hc]
      rw [List.cons_append, subFence_cons_none htf,
        ih z (fun x hx => h x (List.mem_cons_of_mem _ hx)), List.cons_append]

theorem dtc_through {c0 : Char} {cl : List Char} :
    ∀ (body rest : List Char), (∀ ch ∈ body, ch ≠ c0) →
      dropThroughClose (c0 :: cl) (body ++ ((c0 :: cl) ++ rest)) = some rest := by
  intro body
  induction body with
  | nil =>
      intro rest h
      have hp := isPrefixOf_append_self (c0 :: cl) rest
      simp only [List.nil_append, List.cons_append] at hp ⊢
      unfold dropThroughClose
      simp only [hp, if_true]
      rw [show ((c0 :: cl).length = cl.length + 1) from by simp, List.drop_succ_cons,
        List.drop_left]
  | cons ch b ih =>
      intro rest h
      have hch : ch ≠ c0 := h ch (List.mem_cons_self ch b)
      simp only [List.cons_append]
      unfold dropThroughClose
      rw [isPrefixOf_cons_ne hch]
      simp only [Bool.false_eq_true, if_false]
      have := ih rest (fun x hx => h x (List.mem_cons_of_mem _ hx))
      simpa [List.cons_append] using this

theorem subFence_block {o c0 : Char} {op cl : List Char} (body rest : List Char)
    (hb : ∀ ch ∈ body, ch ≠ c0) :
    subFence (o :: op) (c0 :: cl) ((o :: op) ++ (body ++ ((c0 :: cl) ++ rest))) =
      subFence (o :: op) (c0 :: cl) rest := by
  have htf : tryFence (o :: op) (c0 :: cl)
      ((o :: op) ++ (body ++ ((c0 :: cl) ++ rest))) = some rest := by
    unfold tryFence
    rw [isPrefixOf_append_self]
    simp only [if_true, List.drop_left]
    exact dtc_through body rest hb
  have htf' : tryFence (o :: op) (c0 :: cl)
      (o :: (op ++ (body ++ ((c0 :: cl) ++ rest)))) = some rest := by
    simpa [List.cons_append] using htf
  have := subFence_cons_some htf'
  simpa [List.cons_append] using this

theorem subFence_failopen_append {o : Char} {op cl : List Char} (c : Char)
    (text z : List Char)
    (hc : tryFence (o :: op) cl (c :: (text ++ z)) = none)
    (htext : ∀ ch ∈ text, ch ≠ o) :
    subFence (o :: op) cl ((c :: text) ++ z) = (c :: text) ++ subFence (o :: op) cl z := by
  rw [List.cons_append, subFence_cons_none hc, subFence_safe_append text z htext,
    List.cons_append]

theorem subFence_tc_think (b z : List Char) (hb : ∀ ch ∈ b, ch ≠ '<') :
    subFence tcOpen tcClose (thinkOpen ++ (b ++ (thinkClose ++ z))) =
      thinkOpen ++ (b ++ (thinkClose ++ subFence tcOpen tcClose z)) := by
  have hc1 : ∀ w : List Char, tryFence tcOpen tcClose ('<' :: 't' :: 'h' :: w) = none := by
    intro w
    simp [tryFence, List.isPrefixOf]
  have hc2 : ∀ w : List Char, tryFence tcOpen tcClose ('<' :: '/' :: w) = none := by
    intro w
    simp [tryFence, List.isPrefixOf]
  have htext1 : ∀ ch ∈ (['t', 'h', 'i', 'n', 'k', '>'] ++ b), ch ≠ '<' := by
    intro x hx
    rcases List.mem_append.mp hx with hx | hx
    · fin_cases hx <;> decide
    · exact hb x hx
  have e1 : subFence tcOpen tcClose
        (('<' :: (['t', 'h', 'i', 'n', 'k', '>'] ++ b)) ++ (thinkClose ++ z)) =
      ('<' :: (['t', 'h', 'i', 'n', 'k', '>'] ++ b)) ++
        subFence tcOpen tcClose (thinkClose ++ z) :=
    subFence_failopen_append '<' (['t', 'h', 'i', 'n', 'k', '>'] ++ b)
      (thinkClose ++ z) (hc1 _) htext1
  have e3 : subFence tcOpen tcClose (thinkClose ++ z) =
      thinkClose ++ subFence tcOpen tcClose z :=
    subFence_failopen_append '<' ['/', 't', 'h', 'i', 'n', 'k', '>'] z (hc2 _) (by decide)
  calc subFence tcOpen tcClose (thinkOpen ++ (b ++ (thinkClose ++ z)))
      = ('<' :: (['t', 'h', 'i', 'n', 'k', '>'] ++ b)) ++
          subFence tcOpen tcClose (thinkClose ++ z) := e1
    _ = ('<' :: (['t', 'h', 'i', 'n', 'k', '>'] ++ b)) ++
          (thinkClose ++ subFence tcOpen tcClose z) := by rw [e3]
    _ = thinkOpen ++ (b ++ (thinkClose ++ subFence tcOpen tcClose z)) := by
          simp [List.append_assoc]

theorem pass_tool (segs : List Segment) :
    (∀ seg ∈ segs, segSafe seg = true) →
    subFence tcOpen tcClose ((segs.map Segment.renderChars).flatten) =
      (((segs.filter (fun seg => !seg.isTool)).map Segment.renderChars).flatten) := by
  induction segs with
  | nil => intro h; rfl
  | cons seg rest ih =>
      intro h
      have hsafe := h seg (List.mem_cons_self seg rest)
      have hrest := ih (fun x hx => h x (List.mem_cons_of_mem _ hx))
      cases seg with
      | text s =>
          simp only [segSafe] at hsafe
          have hs : ∀ ch ∈ s.data, ch ≠ '<' := by
            intro ch hch
            simpa using List.all_eq_true.mp hsafe ch hch
          simp only [List.map_cons, List.flatten_cons, Segment.renderChars]
          rw [subFence_safe_append _ _ hs, hrest]
          simp [Segment.isTool, Segment.renderChars]
      | toolBlock bstr =>
          simp only [segSafe] at hsafe
          have hs : ∀ ch ∈ bstr.data, ch ≠ '<' := by
            intro ch hch
            simpa using List.all_eq_true.mp hsafe ch hch
          simp only [List.map_cons, List.flatten_cons, Segment.renderChars]
          rw [List.append_assoc, List.append_assoc, subFence_block bstr.data _ hs, hrest]
          simp [Segment.isTool]
      | thinkBlock bstr =>
          simp only [segSafe] at hsafe
          have hs : ∀ ch ∈ bstr.data, ch ≠ '<' := by
            intro ch hch
            simpa using List.all_eq_true.mp hsafe ch hch
          simp only [List.map_cons, List.flatten_cons, Segment.renderChars]
          rw [List.append_assoc, List.append_assoc, subFence_tc_think bstr.data _ hs, hrest]
          simp [Segment.isTool, Segment.renderChars, List.append_assoc]

theorem pass_think (segs : List Segment) :
    (∀ seg ∈ segs, segSafe seg = true) → (∀ seg ∈ segs, seg.isTool = false) →
    subFence thinkOpen thinkClose ((segs.map Segment.renderChars).flatten) =
      (segs.map Segment.visChars).flatten := by
  induction segs with
  | nil => intro _ _; rfl
  | cons seg rest ih =>
      intro h htool
      have hsafe := h seg (List.mem_cons_self seg rest)
      have hrest := ih (fun x hx => h x (List.mem_cons_of_mem _ hx))
        (fun x hx => htool x (List.mem_cons_of_mem _ hx))
      cases seg with
      | text s =>
          simp only [segSafe] at hsafe
          have hs : ∀ ch ∈ s.data, ch ≠ '<' := by
            intro ch hch
            simpa using List.all_eq_true.mp hsafe ch hch
          simp only [List.map_cons, List.flatten_cons, Segment.renderChars,
            Segment.visChars]
          rw [subFence_safe_append _ _ hs, hrest]
      | toolBlock bstr =>
          have := htool _ (List.mem_cons_self _ rest)
          simp [Segment.isTool] at this
      | thinkBlock bstr =>
          simp only [segSafe] at hsafe
          have hs : ∀ ch ∈ bstr.data, ch ≠ '<' := by
            intro ch hch
            simpa using List.all_eq_true.mp hsafe ch hch
          simp only [List.map_cons, List.flatten_cons, Segment.renderChars,
            Segment.visChars]
          rw [List.append_assoc, List.append_assoc, subFence_block bstr.data _ hs, hrest]
          simp

theorem vis_filter (segs : List Segment) :
    (((segs.filter (fun seg => !seg.isTool)).map Segment.visChars).flatten) =
      ((segs.map Segment.visChars).flatten) := by
  induction segs with
  | nil => rfl
  | cons seg rest ih =>
      cases seg with
      | text s => simpa [Segment.isTool, Segment.visChars] using ih
      | toolBlock bstr => simpa [Segment.isTool, Segment.visChars] using ih
      | thinkBlock bstr => simpa [Segment.isTool, Segment.visChars] using ih

theorem filter_safe (segs : List Segment) (h : ∀ seg ∈ segs, segSafe seg = true) :
    ∀ seg ∈ segs.filter (fun seg => !seg.isTool), segSafe seg = true := by
  intro seg hseg
  exact h seg (List.mem_of_mem_filter hseg)

theorem filter_notool (segs : List Segment) :
    ∀ seg ∈ segs.filter (fun seg => !seg.isTool), seg.isTool = false := by
  intro seg hseg
  have := List.of_mem_filter hseg
  simpa using this

-- ===== C7 =====

/-- C7: `extract_final_response` removes every tool-call block and every
    reasoning block: on any response assembled from plain text and fenced
    blocks (payloads free of the fence-marker character), the result is the
    concatenated plain text, stripped; and on any input containing neither
    fence marker, the result is the input itself with only surrounding
    whitespace removed. -/
theorem C7_extract_final_response :
    (∀ segs : List Segment, (∀ seg ∈ segs, segSafe seg = true) →
      extract_final_response (renderSegs segs) = pyStrip (visibleText segs)) ∧
    (∀ s : String, hasSubStr "<tool_call>" s = false → hasSubStr "<think>" s = false →
      extract_final_response s = pyStrip s) := by
  constructor
  · intro segs hsafe
    show String.mk (pyStripList (subFence thinkOpen thinkClose
        (subFence tcOpen tcClose (renderSegs segs).data))) = pyStrip (visibleText segs)
    have h1 : (renderSegs segs).data = (segs.map Segment.renderChars).flatten := rfl
    rw [h1, pass_tool segs hsafe,
      pass_think _ (filter_safe segs hsafe) (filter_notool segs), vis_filter]
    rfl
  · intro s h1 h2
    have h1t : hasSub tcOpen s.data = false := h1
    have h2t : hasSub thinkOpen s.data = false := h2
    show String.mk (pyStripList (subFence thinkOpen thinkClose
        (subFence tcOpen tcClose s.data))) = pyStrip s
    rw [subFence_no_open h1t, subFence_no_open h2t]
    rfl

theorem C7_witness :
    extract_final_response (renderSegs
        [Segment.thinkBlock "mm", Segment.text " hi ", Segment.toolBlock "x"]) =
      pyStrip (visibleText
        [Segment.thinkBlock "mm", Segment.text " hi ", Segment.toolBlock "x"]) ∧
    extract_final_response " plain " = pyStrip " plain " :=
  ⟨C7_extract_final_response.1
     [Segment.thinkBlock "mm", Segment.text " hi ", Segment.toolBlock "x"] (by decide),
   C7_extract_final_response.2 " plain " (by decide) (by decide)⟩
